import Mathlib

/-!
Verification of the TypeBleed Session Aggregation & Character-Set
Reconstruction Engine (src/server/server.py, src/analysis/reconstruct.py).

The Python code is shallowly embedded as executable Lean definitions:
Python `str` values become Lean `String`, Python lists become `List`,
Python dicts become insertion-ordered association lists, and wall-clock
timestamps (`time.time()` floats, used only for comparison and
assignment, never arithmetic) become `Int`.  The ASCII-only fragments of
Python's Unicode-aware `str` predicates (`isdigit`, `isupper`,
`islower`, `isalnum`, `upper`, `lower`) are embedded directly; this
coincides with Python on the program's glyph domain (printable ASCII,
the currency symbols € £ ¥ ₿, and the `U+XXXX` sentinel tokens built
from ASCII hex strings).  Python's stable `list.sort` / `sorted` are
embedded as a stable insertion sort (`pySortBy`), which computes the
same function as any stable sort for the same ordering.
-/

set_option maxRecDepth 100000

/-- Python `c.isdigit()` for a single character (ASCII fragment). -/
def pyIsDigitChar (c : Char) : Bool := 48 ≤ c.toNat && c.toNat ≤ 57

/-- Python `c.isupper()` for a single character (ASCII fragment). -/
def pyIsUpperChar (c : Char) : Bool := 65 ≤ c.toNat && c.toNat ≤ 90

/-- Python `c.islower()` for a single character (ASCII fragment). -/
def pyIsLowerChar (c : Char) : Bool := 97 ≤ c.toNat && c.toNat ≤ 122

/-- A character is cased (ASCII fragment): it is a letter with case. -/
def pyIsCasedChar (c : Char) : Bool := pyIsUpperChar c || pyIsLowerChar c

/-- Python `c.isalnum()` for a single character (ASCII fragment). -/
def pyIsAlnumChar (c : Char) : Bool :=
  pyIsDigitChar c || pyIsUpperChar c || pyIsLowerChar c

/-- Python `s.isdigit()`: nonempty and every character is a digit. -/
def pyStrIsDigit (s : String) : Bool :=
  !s.toList.isEmpty && s.toList.all pyIsDigitChar

/-- Python `s.isupper()`: at least one cased character and every cased
character is uppercase. -/
def pyStrIsUpper (s : String) : Bool :=
  s.toList.any pyIsCasedChar &&
    s.toList.all (fun c => !pyIsCasedChar c || pyIsUpperChar c)

/-- Python `s.islower()`: at least one cased character and every cased
character is lowercase. -/
def pyStrIsLower (s : String) : Bool :=
  s.toList.any pyIsCasedChar &&
    s.toList.all (fun c => !pyIsCasedChar c || pyIsLowerChar c)

/-- Python `s.isalnum()`: nonempty and every character is alphanumeric. -/
def pyStrIsAlnum (s : String) : Bool :=
  !s.toList.isEmpty && s.toList.all pyIsAlnumChar

/-- ASCII uppercasing of one character, the fragment of Python
`str.upper` exercised by the program (inputs are hex strings and
codepoint path components). -/
def pyUpperChar (c : Char) : Char :=
  if 97 ≤ c.toNat && c.toNat ≤ 122 then Char.ofNat (c.toNat - 32) else c

/-- ASCII lowercasing of one character, the fragment of Python
`str.lower` exercised by the program. -/
def pyLowerChar (c : Char) : Char :=
  if 65 ≤ c.toNat && c.toNat ≤ 90 then Char.ofNat (c.toNat + 32) else c

/-- Python `s.upper()` (ASCII fragment). -/
def pyUpper (s : String) : String := String.mk (s.toList.map pyUpperChar)

/-- Python `s.lower()` (ASCII fragment). -/
def pyLower (s : String) : String := String.mk (s.toList.map pyLowerChar)

/-- Python `<=` on lists of characters: lexicographic by code point. -/
def pyListLe : List Char → List Char → Bool
  | [], _ => true
  | _ :: _, [] => false
  | a :: as, b :: bs =>
    if a < b then true else if b < a then false else pyListLe as bs

/-- Python `<=` on strings: lexicographic by code point. -/
def pyStrLe (a b : String) : Bool := pyListLe a.toList b.toList

/-- Insert into a list in front of the first element `x` with
`le w x`; the single step of a stable insertion sort. -/
def pyInsertBy (le : String → String → Bool) (w : String) :
    List String → List String
  | [] => [w]
  | x :: xs => if le w x then w :: x :: xs else x :: pyInsertBy le w xs

/-- Stable insertion sort.  Both Python `sorted(...)` and
`list.sort(...)` are stable sorts, so for a fixed ordering they compute
exactly this function. -/
def pySortBy (le : String → String → Bool) : List String → List String
  | [] => []
  | w :: ws => pyInsertBy le w (pySortBy le ws)

/-- The ordering used by `possible.sort(key=len, reverse=True)`:
`w` may precede `x` when `x` is no longer than `w` (stable descending
sort by word length). -/
def lenDescLe (w x : String) : Bool := decide (x.length ≤ w.length)

/-- `sorted(...)` over strings, ascending (server.py line 536,
reconstruct.py lines 105-108, 161, 166). -/
def pySorted (l : List String) : List String := pySortBy pyStrLe l

/-- One hex digit, uppercase, as produced by Python `"%X"` formatting. -/
def hexDigit (n : Nat) : Char :=
  if n < 10 then Char.ofNat (48 + n) else Char.ofNat (55 + n)

/-- Python `f"{cp:04X}"` for code points below `0x10000`. -/
def hex4 (n : Nat) : String :=
  String.mk [hexDigit (n / 4096 % 16), hexDigit (n / 256 % 16),
    hexDigit (n / 16 % 16), hexDigit (n % 16)]

/-- The code points enumerated into the registry: the printable ASCII
range `0x0020..0x007E` (Python `range(0x0020, 0x007F)`) followed by the
currency symbols € £ ¥ ₿ (server.py lines 67-71, reconstruct.py lines
28-32). -/
def registryCodepoints : List Nat :=
  List.range' 0x20 0x5F ++ ("€£¥₿".toList.map Char.toNat)

/-- `CHAR_MAP` (identical in server.py lines 67-71 and reconstruct.py
lines 28-32): hex key `f"{cp:04X}"` mapped to the one-character glyph. -/
def CHAR_MAP : List (String × String) :=
  registryCodepoints.map (fun cp => (hex4 cp, String.mk [Char.ofNat cp]))

/-- `codepoint_to_char` (server.py lines 74-76, reconstruct.py lines
35-36): `CHAR_MAP.get(hex_cp.upper(), f"U+{hex_cp}")`. -/
def codepoint_to_char (hex_cp : String) : String :=
  ((CHAR_MAP.lookup (pyUpper hex_cp)).getD ("U+" ++ hex_cp))

/-- C4: the registry is total and case-insensitive: every code point of
the printable ASCII range or the currency set, presented as any letter
case variant of its canonical four-digit uppercase hex key, maps to its
one-character glyph; every input whose uppercased form is not a key
falls back to the literal `U+<input>`; in particular `"FFFF"` yields
`"U+FFFF"`. -/
theorem C4_registry_total_case_insensitive :
    (∀ cp ∈ registryCodepoints, ∀ s : String, pyUpper s = hex4 cp →
      codepoint_to_char s = String.mk [Char.ofNat cp]) ∧
    (∀ s : String, CHAR_MAP.lookup (pyUpper s) = none →
      codepoint_to_char s = "U+" ++ s) ∧
    codepoint_to_char "FFFF" = "U+FFFF" := by
  have hAll : ∀ cp ∈ registryCodepoints,
      CHAR_MAP.lookup (hex4 cp) = some (String.mk [Char.ofNat cp]) := by decide
  refine ⟨?_, ?_, by decide⟩
  · intro cp hcp s hs
    simp [codepoint_to_char, hs, hAll cp hcp]
  · intro s hnone
    simp [codepoint_to_char, hnone]

/-- Witness for C4: the glyph of `0x004A` is found under the lowercase
key `"004a"`, and the unmapped lowercase input `"ffff"` falls back to
the literal. -/
theorem C4_registry_witness :
    codepoint_to_char "004a" = "J" ∧ codepoint_to_char "ffff" = "U+ffff" :=
  ⟨C4_registry_total_case_insensitive.1 0x4A (by decide) "004a" (by decide),
   C4_registry_total_case_insensitive.2.1 "ffff" (by decide)⟩

/-- `COMMON_WORDS` (server.py lines 489-507). -/
def COMMON_WORDS : List String := [
  "the", "be", "to", "of", "and", "a", "in", "that", "have", "i",
  "it", "for", "not", "on", "with", "he", "as", "you", "do", "at",
  "this", "but", "his", "by", "from", "they", "we", "say", "her",
  "she", "or", "an", "will", "my", "one", "all", "would", "there",
  "their", "what", "so", "up", "out", "if", "about", "who", "get",
  "which", "go", "me", "when", "make", "can", "like", "time", "no",
  "just", "him", "know", "take", "people", "into", "year", "your",
  "good", "some", "could", "them", "see", "other", "than", "then",
  "now", "look", "only", "come", "its", "over", "think", "also",
  "back", "after", "use", "two", "how", "our", "work", "first",
  "well", "way", "even", "new", "want", "because", "any", "these",
  "give", "day", "most", "us", "bank", "account", "balance",
  "transfer", "payment", "salary", "credit", "debit", "card",
  "savings", "current", "iban", "transaction", "amount", "total",
  "euro", "monthly", "pass", "food", "delivery", "secure",
  "security", "personal", "welcome", "active", "enabled",
  "helsinki", "finland"]

/-- `WORD_LISTS` (reconstruct.py lines 43-73), an insertion-ordered
dict of category name to fixed word list. -/
def WORD_LISTS : List (String × List String) := [
  ("banking", [
    "account", "balance", "transfer", "payment", "salary", "credit",
    "debit", "card", "savings", "current", "iban", "transaction",
    "amount", "total", "euro", "monthly", "statement", "withdraw",
    "deposit", "interest", "loan", "mortgage", "overdraft", "fee",
    "charge", "refund", "pending", "completed", "failed", "secure",
    "security", "authentication", "password", "login", "session",
    "active", "expired", "personal", "business", "joint", "holder"]),
  ("common", [
    "the", "be", "to", "of", "and", "a", "in", "that", "have", "it",
    "for", "not", "on", "with", "as", "you", "do", "at", "this", "but",
    "by", "from", "they", "we", "say", "her", "she", "or", "an", "will",
    "my", "one", "all", "would", "there", "their", "what", "so", "up",
    "out", "if", "about", "who", "get", "which", "go", "me", "when",
    "make", "can", "like", "time", "no", "just", "know", "take",
    "people", "into", "year", "your", "good", "some", "could", "them",
    "see", "other", "than", "then", "now", "look", "only", "come",
    "back", "after", "use", "two", "how", "our", "work", "first",
    "well", "way", "even", "new", "want", "because", "any", "these",
    "give", "day", "most"]),
  ("names", [
    "mihalis", "haatainen", "antti", "korhonen", "sanna", "virtanen",
    "helsinki", "finland", "bountyy", "securebank", "netflix", "wolt"]),
  ("numbers_currency", [
    "0", "1", "2", "3", "4", "5", "6", "7", "8", "9"])]

/-- `char_set_lower = {c.lower() for c in char_set}` (server.py line
512, reconstruct.py line 84), as the image list; only membership is
ever queried, so duplicates are irrelevant. -/
def charSetLower (char_set : List String) : List String :=
  char_set.map pyLower

/-- `all(c in char_set_lower for c in w)` (server.py line 515,
reconstruct.py line 89): every constituent letter of `w` occurs in the
case-folded input set. -/
def spellableFrom (lower : List String) (w : String) : Bool :=
  w.toList.all (fun c => lower.contains (String.mk [c]))

/-- `infer_words` of the live collector (server.py lines 510-519):
filter `COMMON_WORDS`, stable sort by length descending, truncate to
the top 15 inside the function itself. -/
def Server.infer_words (char_set : List String) : List String :=
  (pySortBy lenDescLe
    (COMMON_WORDS.filter (fun w => spellableFrom (charSetLower char_set) w))).take 15

/-- `infer_words` of the reconstruction tool (reconstruct.py lines
76-93): for each requested category (default: all of `WORD_LISTS` in
order) the filtered, stable length-descending-sorted word list, with no
truncation. -/
def Reconstruct.infer_words (char_set : List String)
    (categories : Option (List String)) : List (String × List String) :=
  (categories.getD (WORD_LISTS.map Prod.fst)).map (fun category =>
    (category, pySortBy lenDescLe
      (((WORD_LISTS.lookup category).getD []).filter
        (fun w => spellableFrom (charSetLower char_set) w))))

/-- `top_words = words[:10]` in the reconstruction CLI display
(reconstruct.py line 217). -/
def Reconstruct.cli_top_words (words : List String) : List String :=
  words.take 10

theorem mem_pyInsertBy {le : String → String → Bool} {w a : String} :
    ∀ {l : List String}, a ∈ pyInsertBy le w l ↔ a = w ∨ a ∈ l := by
  intro l
  induction l with
  | nil => simp [pyInsertBy]
  | cons x xs ih =>
    by_cases h : le w x = true
    · simp [pyInsertBy, h]
    · simp only [pyInsertBy, if_neg h, List.mem_cons, ih]
      tauto

theorem mem_pySortBy {le : String → String → Bool} {a : String} :
    ∀ {l : List String}, a ∈ pySortBy le l ↔ a ∈ l := by
  intro l
  induction l with
  | nil => simp [pySortBy]
  | cons x xs ih => simp [pySortBy, mem_pyInsertBy, ih]

theorem pyInsertBy_pairwise {le : String → String → Bool}
    (total : ∀ a b, le a b = true ∨ le b a = true)
    (trans : ∀ a b c, le a b = true → le b c = true → le a c = true)
    (w : String) :
    ∀ {l : List String}, l.Pairwise (fun a b => le a b = true) →
      (pyInsertBy le w l).Pairwise (fun a b => le a b = true) := by
  intro l
  induction l with
  | nil => simp [pyInsertBy]
  | cons x xs ih =>
    intro hp
    rcases List.pairwise_cons.mp hp with ⟨hx, hxs⟩
    by_cases h : le w x = true
    · rw [show pyInsertBy le w (x :: xs) = w :: x :: xs from by
        simp [pyInsertBy, h]]
      refine List.pairwise_cons.mpr ⟨?_, hp⟩
      intro y hy
      rcases List.mem_cons.mp hy with rfl | hy
      · exact h
      · exact trans w x y h (hx y hy)
    · rw [show pyInsertBy le w (x :: xs) = x :: pyInsertBy le w xs from by
        simp [pyInsertBy, h]]
      refine List.pairwise_cons.mpr ⟨?_, ih hxs⟩
      intro y hy
      rcases mem_pyInsertBy.mp hy with h1 | hy
      · rw [h1]
        rcases total w x with hw | hw
        · exact absurd hw h
        · exact hw
      · exact hx y hy

theorem pySortBy_pairwise {le : String → String → Bool}
    (total : ∀ a b, le a b = true ∨ le b a = true)
    (trans : ∀ a b c, le a b = true → le b c = true → le a c = true) :
    ∀ l : List String,
      (pySortBy le l).Pairwise (fun a b => le a b = true) := by
  intro l
  induction l with
  | nil => simp [pySortBy]
  | cons x xs ih => exact pyInsertBy_pairwise total trans x ih

theorem lenDescLe_total (a b : String) :
    lenDescLe a b = true ∨ lenDescLe b a = true := by
  simp only [lenDescLe, decide_eq_true_eq]
  omega

theorem lenDescLe_trans (a b c : String) :
    lenDescLe a b = true → lenDescLe b c = true → lenDescLe a c = true := by
  simp only [lenDescLe, decide_eq_true_eq]
  omega

theorem filter_pyInsertBy_len (w : String) (n : Nat) :
    ∀ l : List String,
      (pyInsertBy lenDescLe w l).filter (fun x => decide (x.length = n)) =
        if w.length = n then
          w :: l.filter (fun x => decide (x.length = n))
        else l.filter (fun x => decide (x.length = n)) := by
  intro l
  induction l with
  | nil =>
    by_cases h : w.length = n <;> simp [pyInsertBy, List.filter, h]
  | cons x xs ih =>
    by_cases h : lenDescLe w x = true
    · by_cases hw : w.length = n <;>
        simp [pyInsertBy, h, List.filter_cons, hw]
    · have hgt : n < x.length ∨ ¬ w.length = n := by
        simp only [lenDescLe, decide_eq_true_eq] at h
        omega
      by_cases hw : w.length = n
      · have hx : ¬ x.length = n := by
          rcases hgt with hgt | hgt
          · omega
          · exact absurd hw hgt
        simp [pyInsertBy, if_neg h, List.filter_cons, hx, ih, hw]
      · by_cases hx : x.length = n <;>
          simp [pyInsertBy, if_neg h, List.filter_cons, hx, ih, hw]

theorem filter_pySortBy_len (n : Nat) :
    ∀ l : List String,
      (pySortBy lenDescLe l).filter (fun x => decide (x.length = n)) =
        l.filter (fun x => decide (x.length = n)) := by
  intro l
  induction l with
  | nil => simp [pySortBy]
  | cons x xs ih =>
    by_cases hx : x.length = n <;>
      simp [pySortBy, filter_pyInsertBy_len, List.filter_cons, hx, ih]

/-- C8: for every input character set and category, the inference
result for that category is a list that (a) is sorted by word length
descending, and (b) for each fixed length agrees exactly, in order,
with the category's fixed word list filtered to words spellable from
the case-folded input set — i.e. it is the stable length-descending
sort of exactly the filtered list; the live collector truncates its
(identically characterised) candidate list to the top 15 inside
`Server.infer_words`, and the reconstruction CLI display truncates to
the top 10. -/
theorem C8_inference_filter_sort_truncate :
    ∀ (chars : List String) (category : String),
    ∃ res : List String,
      Reconstruct.infer_words chars (some [category]) = [(category, res)] ∧
      res.Pairwise (fun a b => b.length ≤ a.length) ∧
      (∀ n, res.filter (fun w => decide (w.length = n)) =
        (((WORD_LISTS.lookup category).getD []).filter
          (fun w => spellableFrom (charSetLower chars) w)).filter
            (fun w => decide (w.length = n))) ∧
      (∃ full : List String,
        Server.infer_words chars = full.take 15 ∧
        full.Pairwise (fun a b => b.length ≤ a.length) ∧
        (∀ n, full.filter (fun w => decide (w.length = n)) =
          (COMMON_WORDS.filter
            (fun w => spellableFrom (charSetLower chars) w)).filter
              (fun w => decide (w.length = n)))) ∧
      Reconstruct.cli_top_words res = res.take 10 := by
  intro chars category
  refine ⟨pySortBy lenDescLe
    (((WORD_LISTS.lookup category).getD []).filter
      (fun w => spellableFrom (charSetLower chars) w)), ?_, ?_, ?_, ?_, rfl⟩
  · simp [Reconstruct.infer_words]
  · exact (pySortBy_pairwise lenDescLe_total lenDescLe_trans _).imp
      (by simp only [lenDescLe, decide_eq_true_eq]; exact fun h => h)
  · exact fun n => filter_pySortBy_len n _
  · refine ⟨pySortBy lenDescLe
      (COMMON_WORDS.filter (fun w => spellableFrom (charSetLower chars) w)),
      rfl, ?_, ?_⟩
    · exact (pySortBy_pairwise lenDescLe_total lenDescLe_trans _).imp
        (by simp only [lenDescLe, decide_eq_true_eq]; exact fun h => h)
    · exact fun n => filter_pySortBy_len n _

theorem spellableFrom_mono {A B : List String} (h : ∀ c ∈ A, c ∈ B)
    (w : String) :
    spellableFrom (charSetLower A) w = true →
      spellableFrom (charSetLower B) w = true := by
  simp only [spellableFrom, List.all_eq_true, List.contains,
    List.elem_eq_mem, decide_eq_true_eq, charSetLower, List.mem_map]
  intro hall c hc
  obtain ⟨x, hx, hxe⟩ := hall c hc
  exact ⟨x, h x hx, hxe⟩

/-- The 26 lowercase ASCII letters as one-character strings. -/
def lettersAZ : List String :=
  ["a", "b", "c", "d", "e", "f", "g", "h", "i", "j", "k", "l", "m",
   "n", "o", "p", "q", "r", "s", "t", "u", "v", "w", "x", "y", "z"]

/-- C2 counterexample: the live collector's word-inference operation
(`Server.infer_words`, which truncates to the top 15 by length inside
the operation) is not monotonic in the input character set: the set
containing only `"a"` is a subset of the 26 lowercase letters, the word
`"a"` is in the candidate list computed for the former, yet it is
absent from the candidate list computed for the larger set, whose top
15 contains only longer words. -/
theorem C2_monotonicity_counterexample :
    (∀ c ∈ (["a"] : List String), c ∈ lettersAZ) ∧
    "a" ∈ Server.infer_words ["a"] ∧
    "a" ∉ Server.infer_words lettersAZ :=
  ⟨by decide, by decide, by decide⟩

/-- C2 amended: word inference is monotonic for the untruncated
per-category candidate lists (`Reconstruct.infer_words`, which applies
no truncation): if every character of `A` occurs in `B`, then for every
vocabulary category, every word in the candidate list computed for `A`
is also in the candidate list computed for `B`.  (The live server's
`Server.infer_words` is excluded: its internal truncation to the top 15
breaks monotonicity, as `C2_monotonicity_counterexample` shows.) -/
theorem C2_amended_untruncated_monotonic :
    ∀ (A B : List String), (∀ c ∈ A, c ∈ B) →
      ∀ (category w : String),
        w ∈ ((Reconstruct.infer_words A (some [category])).lookup
          category).getD [] →
        w ∈ ((Reconstruct.infer_words B (some [category])).lookup
          category).getD [] := by
  intro A B hAB category w hw
  have hred : ∀ C : List String,
      ((Reconstruct.infer_words C (some [category])).lookup category).getD []
        = pySortBy lenDescLe (((WORD_LISTS.lookup category).getD []).filter
            (fun w => spellableFrom (charSetLower C) w)) := by
    intro C
    simp [Reconstruct.infer_words, List.lookup]
  rw [hred] at hw
  rw [hred]
  rw [mem_pySortBy, List.mem_filter] at hw
  rw [mem_pySortBy, List.mem_filter]
  exact ⟨hw.1, spellableFrom_mono hAB w hw.2⟩

/-- Witness for C2 amended: instantiated at `A = ["a"]`,
`B = ["a", "b"]`, category `"common"`, word `"a"`. -/
theorem C2_amended_witness :
    "a" ∈ ((Reconstruct.infer_words ["a", "b"] (some ["common"])).lookup
      "common").getD [] :=
  C2_amended_untruncated_monotonic ["a"] ["a", "b"] (by decide)
    "common" "a" (by decide)

theorem pyListLe_total : ∀ a b : List Char,
    pyListLe a b = true ∨ pyListLe b a = true := by
  intro a
  induction a with
  | nil => intro b; left; rfl
  | cons x xs ih =>
    intro b
    cases b with
    | nil => right; rfl
    | cons y ys =>
      by_cases hxy : x < y
      · left; simp [pyListLe, hxy]
      · by_cases hyx : y < x
        · right; simp [pyListLe, hyx]
        · rcases ih ys with h | h
          · left; simp [pyListLe, hxy, hyx, h]
          · right; simp [pyListLe, hxy, hyx, h]

theorem pyListLe_trans : ∀ a b c : List Char,
    pyListLe a b = true → pyListLe b c = true → pyListLe a c = true := by
  intro a
  induction a with
  | nil => intro b c h1 h2; rfl
  | cons x xs ih =>
    intro b c h1 h2
    cases b with
    | nil => simp [pyListLe] at h1
    | cons y ys =>
      cases c with
      | nil => simp [pyListLe] at h2
      | cons z zs =>
        by_cases hxy : x < y
        · by_cases hyz : y < z
          · simp [pyListLe, lt_trans hxy hyz]
          · by_cases hzy : z < y
            · simp [pyListLe, hyz, hzy] at h2
            · have hyzeq : y = z := le_antisymm (not_lt.mp hzy) (not_lt.mp hyz)
              subst hyzeq
              simp [pyListLe, hxy]
        · by_cases hyx : y < x
          · simp [pyListLe, hxy, hyx] at h1
          · have hxyeq : x = y := le_antisymm (not_lt.mp hyx) (not_lt.mp hxy)
            subst hxyeq
            simp only [pyListLe, if_neg hxy, if_neg hyx] at h1
            by_cases hxz : x < z
            · simp [pyListLe, hxz]
            · by_cases hzx : z < x
              · simp [pyListLe, hxz, hzx] at h2
              · simp only [pyListLe, if_neg hxz, if_neg hzx] at h2 ⊢
                exact ih ys zs h1 h2

theorem pyStrLe_total (a b : String) :
    pyStrLe a b = true ∨ pyStrLe b a = true := pyListLe_total _ _

theorem pyStrLe_trans (a b c : String) :
    pyStrLe a b = true → pyStrLe b c = true → pyStrLe a c = true :=
  pyListLe_trans _ _ _

/-- A list of strings sorted ascending in the Python string order
(lexicographic by code point), as `sorted(...)` produces. -/
def strSortedAsc (l : List String) : Prop :=
  l.Pairwise (fun a b => pyStrLe a b = true)

/-- No element of the first list occurs in the second. -/
def listDisjoint (l₁ l₂ : List String) : Prop := ∀ s, s ∈ l₁ → s ∉ l₂

/-- The character class of the currency flag (reconstruct.py line 103):
`set("€£¥₿$")` — it contains the dollar sign in addition to € £ ¥ ₿. -/
def currencyFlagChars : List String := ["€", "£", "¥", "₿", "$"]

/-- The fixed punctuation class (reconstruct.py line 104): the eleven
characters of `".,!?;:-()"` plus the single-quote and double-quote
characters (written via their code points 39 and 34). -/
def punctuationChars : List String :=
  [".", ",", "!", "?", ";", ":", "-", "(", ")",
   String.mk [Char.ofNat 39], String.mk [Char.ofNat 34]]

/-- `CharacterSetAnalysis`: the result record of
`analyze_character_set` (reconstruct.py lines 96-123). -/
structure CharacterSetAnalysis where
  total_unique : Nat
  has_digits : Bool
  has_uppercase : Bool
  has_lowercase : Bool
  has_currency : Bool
  has_punctuation : Bool
  digits : List String
  uppercase : List String
  lowercase : List String
  special : List String
  patterns : List String

/-- `analyze_character_set` (reconstruct.py lines 96-123).  The input
is the collection of captured glyph strings (single characters or
`U+XXXX` sentinel tokens); only membership, `any`, `filter` and
`sorted` are applied to it, so a list faithfully represents the Python
iterable.  Pattern labels are appended in the fixed source order. -/
def analyze_character_set (chars : List String) : CharacterSetAnalysis :=
  let has_digits := chars.any pyStrIsDigit
  let has_uppercase := chars.any pyStrIsUpper
  let has_lowercase := chars.any pyStrIsLower
  let has_currency := chars.any (fun c => currencyFlagChars.contains c)
  let has_punctuation := chars.any (fun c => punctuationChars.contains c)
  { total_unique := chars.length
    has_digits := has_digits
    has_uppercase := has_uppercase
    has_lowercase := has_lowercase
    has_currency := has_currency
    has_punctuation := has_punctuation
    digits := pySorted (chars.filter pyStrIsDigit)
    uppercase := pySorted (chars.filter pyStrIsUpper)
    lowercase := pySorted (chars.filter pyStrIsLower)
    special := pySorted (chars.filter
      (fun c => !pyStrIsAlnum c && !(c == " ")))
    patterns :=
      (if has_currency && has_digits then
        ["CURRENCY_AMOUNT (monetary values detected)"] else []) ++
      ((if has_uppercase && has_lowercase then
        ["MIXED_CASE (proper nouns or sentences)"] else []) ++
      ((if (chars.contains "F" && chars.contains "I") &&
          chars.any pyStrIsDigit then
        ["FINNISH_IBAN (FI prefix + digits)"] else []) ++
      (if chars.contains "@" then
        ["EMAIL_ADDRESS (@ symbol present)"] else []))) }

theorem mem_if_singleton {b : Bool} {s t : String} :
    (s ∈ if b = true then [t] else []) ↔ (b = true ∧ s = t) := by
  cases b <;> simp

theorem mem_analysis_subset {p : String → Bool} {chars : List String}
    {s : String} :
    s ∈ pySorted (chars.filter p) ↔ s ∈ chars ∧ p s = true := by
  rw [pySorted, mem_pySortBy, List.mem_filter]

theorem pyIsDigitChar_not_cased {c : Char} :
    pyIsDigitChar c = true → pyIsCasedChar c = false := by
  simp only [pyIsDigitChar, pyIsCasedChar, pyIsUpperChar, pyIsLowerChar,
    Bool.and_eq_true, decide_eq_true_eq, Bool.or_eq_false_iff,
    Bool.and_eq_false_iff, decide_eq_false_iff_not, not_le]
  omega

theorem pyIsUpperChar_not_lower {c : Char} :
    pyIsUpperChar c = true → pyIsLowerChar c = false := by
  simp only [pyIsUpperChar, pyIsLowerChar, Bool.and_eq_true,
    decide_eq_true_eq, Bool.and_eq_false_iff, decide_eq_false_iff_not,
    not_le]
  omega

theorem pyStrIsDigit_no_cased {s : String} (h : pyStrIsDigit s = true) :
    s.toList.any pyIsCasedChar = false := by
  rw [pyStrIsDigit, Bool.and_eq_true, List.all_eq_true] at h
  obtain ⟨-, hall⟩ := h
  rw [Bool.eq_false_iff]
  intro hany
  rcases List.any_eq_true.mp hany with ⟨c, hc, hcased⟩
  rw [pyIsDigitChar_not_cased (hall c hc)] at hcased
  exact Bool.false_ne_true hcased

theorem pyStrIsDigit_not_upper {s : String} (h : pyStrIsDigit s = true) :
    pyStrIsUpper s = false := by
  rw [pyStrIsUpper, pyStrIsDigit_no_cased h, Bool.false_and]

theorem pyStrIsDigit_not_lower {s : String} (h : pyStrIsDigit s = true) :
    pyStrIsLower s = false := by
  rw [pyStrIsLower, pyStrIsDigit_no_cased h, Bool.false_and]

theorem pyStrIsUpper_not_lower {s : String} (h : pyStrIsUpper s = true) :
    pyStrIsLower s = false := by
  rw [pyStrIsUpper, Bool.and_eq_true, List.all_eq_true] at h
  obtain ⟨hany, hallU⟩ := h
  rcases List.any_eq_true.mp hany with ⟨c, hc, hcased⟩
  rw [pyStrIsLower, Bool.eq_false_iff]
  intro hlow
  rw [Bool.and_eq_true, List.all_eq_true] at hlow
  obtain ⟨-, hallL⟩ := hlow
  have hU := hallU c hc
  have hL := hallL c hc
  rw [hcased, Bool.not_true, Bool.false_or] at hU hL
  rw [pyIsUpperChar_not_lower hU] at hL
  exact Bool.false_ne_true hL

theorem pyStrIsDigit_isAlnum {s : String} (h : pyStrIsDigit s = true) :
    pyStrIsAlnum s = true := by
  rw [pyStrIsDigit, Bool.and_eq_true, List.all_eq_true] at h
  obtain ⟨hne, hall⟩ := h
  rw [pyStrIsAlnum, Bool.and_eq_true, List.all_eq_true]
  refine ⟨hne, fun c hc => ?_⟩
  simp [pyIsAlnumChar, hall c hc]

/-- C5 counterexample: the analyzer's currency flag is raised by the
input set containing only `"$"`, although `$` is not one of the four
currency symbols € £ ¥ ₿ of the specified currency set. -/
theorem C5_currency_counterexample :
    (analyze_character_set ["$"]).has_currency = true ∧
    "$" ∉ (["€", "£", "¥", "₿"] : List String) :=
  ⟨by decide, by decide⟩

/-- C5 amended: the analyzer's currency flag is an existence test
against the five-character class `{€, £, ¥, ₿, $}` (the code includes
the dollar sign): for every input character set, `has_currency` is true
iff the set contains at least one member of that class. -/
theorem C5_amended_currency_flag :
    ∀ chars : List String,
      (analyze_character_set chars).has_currency = true ↔
        ∃ c ∈ chars, c ∈ currencyFlagChars := by
  intro chars
  simp [analyze_character_set, List.any_eq_true, List.contains,
    List.elem_eq_mem]

/-- C6: the analyzer reports `FINNISH_IBAN` iff the input set contains
the letter `F` as a member, contains the letter `I` as a member, and
contains at least one digit — an independent membership test on the two
letters, not a substring test; in particular the set
`{F, I, 2, 1, 0}` triggers the pattern. -/
theorem C6_finnish_iban_membership_test :
    (∀ chars : List String,
      "FINNISH_IBAN (FI prefix + digits)" ∈
          (analyze_character_set chars).patterns ↔
        ("F" ∈ chars ∧ "I" ∈ chars ∧ ∃ c ∈ chars, pyStrIsDigit c = true)) ∧
    "FINNISH_IBAN (FI prefix + digits)" ∈
      (analyze_character_set ["F", "I", "2", "1", "0"]).patterns := by
  constructor
  · intro chars
    simp only [analyze_character_set, List.mem_append, mem_if_singleton]
    constructor
    · rintro (⟨-, h⟩ | (⟨-, h⟩ | (⟨hc, -⟩ | ⟨-, h⟩)))
      · exact absurd h (by decide)
      · exact absurd h (by decide)
      · simp only [Bool.and_eq_true, List.contains, List.elem_eq_mem,
          decide_eq_true_eq, List.any_eq_true] at hc
        exact ⟨hc.1.1, hc.1.2, hc.2⟩
      · exact absurd h (by decide)
    · rintro ⟨hF, hI, c, hc, hdig⟩
      refine Or.inr (Or.inr (Or.inl ⟨?_, by trivial⟩))
      simp only [Bool.and_eq_true, List.contains, List.elem_eq_mem,
        decide_eq_true_eq, List.any_eq_true]
      exact ⟨⟨hF, hI⟩, c, hc, hdig⟩
  · decide

theorem pySorted_sortedAsc (l : List String) : strSortedAsc (pySorted l) :=
  pySortBy_pairwise pyStrLe_total pyStrLe_trans l

theorem single_char_cased_alnum {s : String}
    (hlen : s.toList.length = 1)
    (hcased : s.toList.any pyIsCasedChar = true) : pyStrIsAlnum s = true := by
  obtain ⟨c, hc⟩ := List.length_eq_one.mp hlen
  rw [hc] at hcased
  rw [pyStrIsAlnum, hc]
  simp only [List.any_cons, List.any_nil, Bool.or_false] at hcased
  simp only [List.isEmpty_cons, Bool.not_false, List.all_cons, List.all_nil,
    Bool.and_true, Bool.true_and]
  revert hcased
  simp only [pyIsCasedChar, pyIsAlnumChar, Bool.or_eq_true]
  tauto

/-- C10 counterexample: the four derived subsets are not pairwise
disjoint.  The sentinel glyph `"U+0019"` — exactly what the registry
produces for the unmapped code point `0019`, so it occurs in real
`characters` collections — satisfies both Python `str.isupper` (its
only cased character `U` is uppercase) and the `special` predicate (it
is not alphanumeric because of `+`), so it appears in both the
`uppercase` and the `special` subset of the analysis. -/
theorem C10_subsets_counterexample :
    codepoint_to_char "0019" = "U+0019" ∧
    "U+0019" ∈ (analyze_character_set ["U+0019"]).uppercase ∧
    "U+0019" ∈ (analyze_character_set ["U+0019"]).special :=
  ⟨by decide, by decide, by decide⟩

/-- C10 amended: for every input character collection, each of the four
derived subsets is sorted ascending in the Python string order and the
space character belongs to none of them; `digits`, `uppercase` and
`lowercase` are pairwise disjoint and `digits` is also disjoint from
`special`; but `uppercase` (or `lowercase`) may overlap `special` on
multi-character sentinel tokens such as `"U+0019"` — when every member
of the input is a single character, all four subsets are pairwise
disjoint. -/
theorem C10_amended_subset_structure :
    ∀ chars : List String,
      strSortedAsc (analyze_character_set chars).digits ∧
      strSortedAsc (analyze_character_set chars).uppercase ∧
      strSortedAsc (analyze_character_set chars).lowercase ∧
      strSortedAsc (analyze_character_set chars).special ∧
      " " ∉ (analyze_character_set chars).digits ∧
      " " ∉ (analyze_character_set chars).uppercase ∧
      " " ∉ (analyze_character_set chars).lowercase ∧
      " " ∉ (analyze_character_set chars).special ∧
      listDisjoint (analyze_character_set chars).digits
        (analyze_character_set chars).uppercase ∧
      listDisjoint (analyze_character_set chars).digits
        (analyze_character_set chars).lowercase ∧
      listDisjoint (analyze_character_set chars).uppercase
        (analyze_character_set chars).lowercase ∧
      listDisjoint (analyze_character_set chars).digits
        (analyze_character_set chars).special ∧
      ((∀ s ∈ chars, s.toList.length = 1) →
        listDisjoint (analyze_character_set chars).uppercase
          (analyze_character_set chars).special ∧
        listDisjoint (analyze_character_set chars).lowercase
          (analyze_character_set chars).special) := by
  intro chars
  have hd : (analyze_character_set chars).digits
      = pySorted (chars.filter pyStrIsDigit) := rfl
  have hu : (analyze_character_set chars).uppercase
      = pySorted (chars.filter pyStrIsUpper) := rfl
  have hl : (analyze_character_set chars).lowercase
      = pySorted (chars.filter pyStrIsLower) := rfl
  have hsp : (analyze_character_set chars).special
      = pySorted (chars.filter (fun c => !pyStrIsAlnum c && !(c == " "))) := rfl
  refine ⟨hd ▸ pySorted_sortedAsc _, hu ▸ pySorted_sortedAsc _,
    hl ▸ pySorted_sortedAsc _, hsp ▸ pySorted_sortedAsc _,
    ?_, ?_, ?_, ?_, ?_, ?_, ?_, ?_, ?_⟩
  · intro h
    rw [hd, mem_analysis_subset] at h
    exact absurd h.2 (by decide)
  · intro h
    rw [hu, mem_analysis_subset] at h
    exact absurd h.2 (by decide)
  · intro h
    rw [hl, mem_analysis_subset] at h
    exact absurd h.2 (by decide)
  · intro h
    rw [hsp, mem_analysis_subset] at h
    exact absurd h.2 (by decide)
  · intro s h1 h2
    rw [hd, mem_analysis_subset] at h1
    rw [hu, mem_analysis_subset] at h2
    rw [pyStrIsDigit_not_upper h1.2] at h2
    exact Bool.false_ne_true h2.2
  · intro s h1 h2
    rw [hd, mem_analysis_subset] at h1
    rw [hl, mem_analysis_subset] at h2
    rw [pyStrIsDigit_not_lower h1.2] at h2
    exact Bool.false_ne_true h2.2
  · intro s h1 h2
    rw [hu, mem_analysis_subset] at h1
    rw [hl, mem_analysis_subset] at h2
    rw [pyStrIsUpper_not_lower h1.2] at h2
    exact Bool.false_ne_true h2.2
  · intro s h1 h2
    rw [hd, mem_analysis_subset] at h1
    rw [hsp, mem_analysis_subset] at h2
    have h3 := h2.2
    rw [Bool.and_eq_true, Bool.not_eq_true'] at h3
    rw [pyStrIsDigit_isAlnum h1.2] at h3
    simp at h3
  · intro hlen
    constructor
    · intro s h1 h2
      rw [hu, mem_analysis_subset] at h1
      rw [hsp, mem_analysis_subset] at h2
      obtain ⟨hsc, hupper⟩ := h1
      rw [pyStrIsUpper, Bool.and_eq_true] at hupper
      have halnum := single_char_cased_alnum (hlen s hsc) hupper.1
      have h3 := h2.2
      rw [Bool.and_eq_true, Bool.not_eq_true'] at h3
      rw [halnum] at h3
      simp at h3
    · intro s h1 h2
      rw [hl, mem_analysis_subset] at h1
      rw [hsp, mem_analysis_subset] at h2
      obtain ⟨hsc, hlower⟩ := h1
      rw [pyStrIsLower, Bool.and_eq_true] at hlower
      have halnum := single_char_cased_alnum (hlen s hsc) hlower.1
      have h3 := h2.2
      rw [Bool.and_eq_true, Bool.not_eq_true'] at h3
      rw [halnum] at h3
      simp at h3

/-- Witness for C10 amended: on the all-single-character collection
`["A", "b", "7", "."]` the conditional clause applies, so the uppercase
member `"A"` is not in the `special` subset. -/
theorem C10_amended_witness :
    "A" ∉ (analyze_character_set ["A", "b", "7", "."]).special :=
  ((C10_amended_subset_structure
    ["A", "b", "7", "."]).2.2.2.2.2.2.2.2.2.2.2.2 (by decide)).1
    "A" (by decide)

/-- Python dict assignment `d[k] = v` on an insertion-ordered dict: an
existing key keeps its position and receives the new value; a new key
is appended at the end. -/
def dictSet (d : List (String × Int)) (k : String) (v : Int) :
    List (String × Int) :=
  if d.any (fun p => p.1 == k) then
    d.map (fun p => if p.1 == k then (k, v) else p)
  else d ++ [(k, v)]

/-- The per-session aggregate of the in-memory session store
(server.py lines 48-61): `codepoints` is the dict mapping a captured
codepoint hex string to the timestamp of its latest request. -/
structure PySession where
  codepoints : List (String × Int)
  ip : String
  user_agent : String
  first_seen : Int
  last_seen : Int
deriving DecidableEq

/-- The `defaultdict` zero value of a freshly created session
(server.py lines 55-61). -/
def PySession.empty : PySession := ⟨[], "", "", 0, 0⟩

/-- One observed font request, as it reaches the session-update code:
`now`, the uppercased codepoint path component, the request IP and the
`User-Agent` header (server.py lines 161-190). -/
structure IngestEvent where
  timestamp : Int
  codepoint : String
  ip : String
  user_agent : String
deriving DecidableEq

/-- The per-session mutation performed by `serve_tracked_font`
(server.py lines 168 and 184-190): upper-case the codepoint, write its
timestamp into the `codepoints` dict, overwrite `ip` and `user_agent`,
set `first_seen` only if it is still the zero value, and assign
`last_seen` unconditionally. -/
def ingest (sess : PySession) (e : IngestEvent) : PySession :=
  { codepoints := dictSet sess.codepoints (pyUpper e.codepoint) e.timestamp
    ip := e.ip
    user_agent := e.user_agent
    first_seen := if sess.first_seen = 0 then e.timestamp else sess.first_seen
    last_seen := e.timestamp }

/-- The captured set of code points of a session: the keys of its
`codepoints` dict, in insertion order (distinct by construction). -/
def capturedKeys (sess : PySession) : List String :=
  sess.codepoints.map Prod.fst

theorem dictSet_keys_of_mem {d : List (String × Int)} {k : String}
    (v : Int) (h : k ∈ d.map Prod.fst) :
    (dictSet d k v).map Prod.fst = d.map Prod.fst := by
  have hany : d.any (fun p => p.1 == k) = true := by
    rw [List.any_eq_true]
    obtain ⟨p, hp, hpk⟩ := List.mem_map.mp h
    exact ⟨p, hp, beq_iff_eq.mpr hpk⟩
  rw [dictSet, if_pos hany, List.map_map]
  apply List.map_congr_left
  intro p hp
  by_cases hpk : (p.1 == k) = true
  · simp only [Function.comp, hpk, if_pos]
    exact (eq_of_beq hpk).symm
  · simp only [Function.comp, hpk]
    rw [if_neg (by simp [hpk])]

theorem dictSet_keys_of_not_mem {d : List (String × Int)} {k : String}
    (v : Int) (h : k ∉ d.map Prod.fst) :
    (dictSet d k v).map Prod.fst = d.map Prod.fst ++ [k] := by
  have hany : d.any (fun p => p.1 == k) = false := by
    rw [Bool.eq_false_iff]
    intro hc
    obtain ⟨p, hp, hpk⟩ := List.any_eq_true.mp hc
    exact h (List.mem_map.mpr ⟨p, hp, eq_of_beq hpk⟩)
  rw [dictSet, if_neg (by simp [hany]), List.map_append]
  rfl

theorem capturedKeys_ingest_step (s : PySession) (e : IngestEvent) :
    capturedKeys (ingest s e) = capturedKeys s ∨
    capturedKeys (ingest s e) = capturedKeys s ++ [pyUpper e.codepoint] := by
  by_cases h : pyUpper e.codepoint ∈ s.codepoints.map Prod.fst
  · exact Or.inl (dictSet_keys_of_mem e.timestamp h)
  · exact Or.inr (dictSet_keys_of_not_mem e.timestamp h)

theorem capturedKeys_length_step (s : PySession) (e : IngestEvent) :
    (capturedKeys s).length ≤ (capturedKeys (ingest s e)).length := by
  rcases capturedKeys_ingest_step s e with h | h <;> rw [h]
  rw [List.length_append]
  omega

theorem capturedKeys_length_foldl :
    ∀ (evs : List IngestEvent) (s : PySession),
      (capturedKeys s).length ≤ (capturedKeys (evs.foldl ingest s)).length := by
  intro evs
  induction evs with
  | nil => intro s; exact Nat.le_refl _
  | cons e evs ih =>
    intro s
    exact Nat.le_trans (capturedKeys_length_step s e) (ih (ingest s e))

/-- C7: the captured set only grows: every captured code point of a
session survives any further `ingest`; the number of captured code
points is non-decreasing over any sequence of `ingest` calls; and
re-ingesting an already-captured code point leaves the captured key
sequence (hence the captured set and its size) unchanged. -/
theorem C7_captured_only_grows :
    ∀ (s : PySession) (e : IngestEvent) (evs : List IngestEvent),
      (∀ k ∈ capturedKeys s, k ∈ capturedKeys (ingest s e)) ∧
      (capturedKeys s).length ≤ (capturedKeys (evs.foldl ingest s)).length ∧
      (pyUpper e.codepoint ∈ capturedKeys s →
        capturedKeys (ingest s e) = capturedKeys s) := by
  intro s e evs
  refine ⟨?_, capturedKeys_length_foldl evs s, ?_⟩
  · intro k hk
    rcases capturedKeys_ingest_step s e with h | h <;> rw [h]
    · exact hk
    · exact List.mem_append_left _ hk
  · intro hmem
    exact dictSet_keys_of_mem e.timestamp hmem

/-- Witness for C7: re-ingesting the already-captured code point
`0041` leaves the captured key sequence of a concrete session
unchanged. -/
theorem C7_captured_witness :
    capturedKeys (ingest ⟨[("0041", 1)], "", "", 1, 1⟩
        ⟨2, "0041", "10.0.0.1", "ua"⟩) =
      capturedKeys (⟨[("0041", 1)], "", "", 1, 1⟩ : PySession) :=
  (C7_captured_only_grows ⟨[("0041", 1)], "", "", 1, 1⟩
    ⟨2, "0041", "10.0.0.1", "ua"⟩ []).2.2 (by decide)

/-- C1 counterexample: `ingest` assigns `last_seen` unconditionally
(server.py line 190), so a late event whose timestamp 3 is older than
the current `last_seen` 5 regresses `last_seen` to 3 instead of
keeping the maximum 5 of all ingested timestamps. -/
theorem C1_last_seen_counterexample :
    (ingest PySession.empty ⟨5, "0041", "10.0.0.1", "x"⟩).last_seen = 5 ∧
    (ingest (ingest PySession.empty ⟨5, "0041", "10.0.0.1", "x"⟩)
        ⟨3, "0042", "10.0.0.1", "x"⟩).last_seen = 3 ∧
    (3 : Int) < 5 :=
  ⟨by decide, by decide, by decide⟩

/-- C1 amended: `ingest` always sets `last_seen` to the incoming
event's timestamp (last-write-wins, no maximum is taken): after any
sequence of `ingest` calls for a session, `last_seen` equals the
timestamp of the final event, so an out-of-order late event does
regress `last_seen`. -/
theorem C1_amended_last_seen_last_write :
    ∀ (s : PySession) (evs : List IngestEvent) (e : IngestEvent),
      (ingest s e).last_seen = e.timestamp ∧
      ((evs ++ [e]).foldl ingest s).last_seen = e.timestamp := by
  intro s evs e
  refine ⟨rfl, ?_⟩
  rw [List.foldl_append]
  rfl

/-- One raw entry of the append-only `access_log` (server.py lines
172-181). -/
structure LogEntry where
  timestamp : Int
  datetime : String
  ip : String
  session_id : String
  codepoint : String
  character : String
  user_agent : String
deriving DecidableEq

/-- Python `l[-n:]`: the last at most `n` elements of a list. -/
def pyLastN (n : Nat) (l : List LogEntry) : List LogEntry :=
  l.drop (l.length - n)

/-- `api_log` (server.py lines 574-583): drop everything before
`since`, keep the last at most 100 of the rest, and report the total
log length — the returned pair is `(entries, total)`. -/
def api_log (access_log : List LogEntry) (since : Nat) :
    List LogEntry × Nat :=
  (pyLastN 100 (access_log.drop since), access_log.length)

/-- C9: for every log and non-negative `since` index, the tail
operation reports the current log length as `total` and returns at
most 100 entries, namely exactly the most recent
`min 100 (length - since)` events, as a suffix (order preserved) of
the log with its first `since` events removed — so no returned event
precedes index `since`. -/
theorem C9_log_tail_bounded :
    ∀ (access_log : List LogEntry) (since : Nat),
      (api_log access_log since).2 = access_log.length ∧
      (api_log access_log since).1.length ≤ 100 ∧
      (api_log access_log since).1.length =
        min 100 (access_log.length - since) ∧
      (api_log access_log since).1 <:+ access_log.drop since := by
  intro log since
  refine ⟨rfl, ?_, ?_, List.drop_suffix _ _⟩
  · simp only [api_log, pyLastN, List.length_drop]
    omega
  · simp only [api_log, pyLastN, List.length_drop]
    omega

/-- A JSON value as produced by Python `json.loads`. -/
inductive JsonVal where
  | null : JsonVal
  | bool : Bool → JsonVal
  | num : Int → JsonVal
  | str : String → JsonVal
  | arr : List JsonVal → JsonVal
  | obj : List (String × JsonVal) → JsonVal

/-- One input line of the replay log, represented by the outcome of
`line.strip()` / `json.loads(line)` on it: blank after stripping
(skipped at reconstruct.py line 148), undecodable (raises
`json.JSONDecodeError`, caught at line 156), or decoded to a JSON
value. -/
inductive PyLine where
  | blank : PyLine
  | undecodable : PyLine
  | decoded : JsonVal → PyLine

/-- The uncaught Python exceptions the replay can raise — only
`json.JSONDecodeError` is caught, so any of these aborts the whole
batch.  The model collapses the exact exception raised for a
non-string code point (`TypeError` in `sorted` on mixed types,
`AttributeError` in `codepoint_to_char`) into `typeError`; both
abort. -/
inductive PyErr where
  | attributeError : PyErr
  | typeError : PyErr
deriving DecidableEq

/-- Equality of hashable (scalar) JSON values, as used for dict keys
and set members.  Compound values never reach an equality test: they
raise `TypeError: unhashable type` first.  (Python's numeric-boolean
cross-type equality `True == 1` is not modelled; all statements below
constrain these fields to strings, where the embedding agrees with
Python.) -/
def jsonScalarBeq : JsonVal → JsonVal → Bool
  | JsonVal.null, JsonVal.null => true
  | JsonVal.bool a, JsonVal.bool b => a == b
  | JsonVal.num a, JsonVal.num b => a == b
  | JsonVal.str a, JsonVal.str b => a == b
  | _, _ => false

/-- Python `entry.get(k, default)` on a decoded JSON object. -/
def pyGet (kvs : List (String × JsonVal)) (k : String) (d : JsonVal) :
    JsonVal :=
  (kvs.lookup k).getD d

/-- A JSON value that cannot be a dict key or set member (Python
raises `TypeError: unhashable type`). -/
def unhashable : JsonVal → Bool
  | JsonVal.arr _ => true
  | JsonVal.obj _ => true
  | _ => false

/-- Python `set.add` on the codepoint set, kept as an insertion-ordered
duplicate-free list (only membership and `sorted` are applied to it, so
the representation order is irrelevant). -/
def setAdd (cps : List JsonVal) (cp : JsonVal) : List JsonVal :=
  if cps.any (fun y => jsonScalarBeq y cp) then cps else cps ++ [cp]

/-- `sessions[sid]["codepoints"].add(cp)` followed by
`sessions[sid]["ip"] = ip`, with the `defaultdict` creating
`{"codepoints": set(), "ip": ""}` on first access (reconstruct.py
lines 143 and 151-155); the state maps each session key to its
codepoint set and latest ip value. -/
def replayUpd (st : List (JsonVal × List JsonVal × JsonVal))
    (sid cp ip : JsonVal) : List (JsonVal × List JsonVal × JsonVal) :=
  if st.any (fun p => jsonScalarBeq p.1 sid) then
    st.map (fun p =>
      if jsonScalarBeq p.1 sid then (sid, setAdd p.2.1 cp, ip) else p)
  else st ++ [(sid, setAdd [] cp, ip)]

/-- One iteration of the replay loop body (reconstruct.py lines
146-157): blank and undecodable lines are skipped; a decoded JSON
object is aggregated; a decoded non-object raises `AttributeError` at
`entry.get` (uncaught); an unhashable session id or codepoint raises
`TypeError` (uncaught). -/
def replayStep (st : List (JsonVal × List JsonVal × JsonVal))
    (line : PyLine) :
    Except PyErr (List (JsonVal × List JsonVal × JsonVal)) :=
  match line with
  | PyLine.blank => Except.ok st
  | PyLine.undecodable => Except.ok st
  | PyLine.decoded (JsonVal.obj kvs) =>
    let sid := pyGet kvs "session_id" (JsonVal.str "unknown")
    let cp := pyGet kvs "codepoint" (JsonVal.str "")
    let ip := pyGet kvs "ip" (JsonVal.str "")
    if unhashable sid then Except.error PyErr.typeError
    else if unhashable cp then Except.error PyErr.typeError
    else Except.ok (replayUpd st sid cp ip)
  | PyLine.decoded _ => Except.error PyErr.attributeError

/-- The replay `for line in f` loop (reconstruct.py lines 146-157):
an uncaught exception in any iteration aborts the whole batch. -/
def replayLoop (st : List (JsonVal × List JsonVal × JsonVal)) :
    List PyLine → Except PyErr (List (JsonVal × List JsonVal × JsonVal))
  | [] => Except.ok st
  | l :: ls =>
    match replayStep st l with
    | Except.error e => Except.error e
    | Except.ok st2 => replayLoop st2 ls

/-- One output record of `parse_log_file` (reconstruct.py lines
160-168). -/
structure ReplaySession where
  session_id : JsonVal
  ip : JsonVal
  characters : List String
  codepoints : List String
  char_count : Nat

/-- The string carried by a JSON string value. -/
def asStr : JsonVal → Option String
  | JsonVal.str s => some s
  | _ => none

/-- The output stage for one session (reconstruct.py lines 160-168):
`sorted` over the codepoint set, `codepoint_to_char` on each member,
and `char_count = len(chars)`.  Any non-string member makes Python
raise (`TypeError` in `sorted`, or `AttributeError` in
`codepoint_to_char`), aborting the batch. -/
def replaySessionOut (sid : JsonVal) (cps : List JsonVal)
    (ip : JsonVal) : Except PyErr ReplaySession :=
  match cps.mapM asStr with
  | none => Except.error PyErr.typeError
  | some scps =>
    Except.ok
      { session_id := sid, ip := ip,
        characters := (pySorted scps).map codepoint_to_char,
        codepoints := pySorted scps,
        char_count := ((pySorted scps).map codepoint_to_char).length }

/-- `parse_log_file` (reconstruct.py lines 141-170), with each input
line represented by its strip/`json.loads` outcome; the result is the
`sessions` list of the returned dict, in session first-seen order. -/
def parse_log_file (lines : List PyLine) :
    Except PyErr (List ReplaySession) :=
  match replayLoop [] lines with
  | Except.error e => Except.error e
  | Except.ok st => st.mapM (fun p => replaySessionOut p.1 p.2.1 p.2.2)

/-- A line that the amended C3 statement admits: blank, undecodable,
or decoded to a JSON object whose `session_id` and `codepoint` fields
(after applying the string defaults) are strings. -/
def lineOk : PyLine → Bool
  | PyLine.blank => true
  | PyLine.undecodable => true
  | PyLine.decoded (JsonVal.obj kvs) =>
    (asStr (pyGet kvs "session_id" (JsonVal.str "unknown"))).isSome &&
      (asStr (pyGet kvs "codepoint" (JsonVal.str ""))).isSome
  | PyLine.decoded _ => false

/-- The decoded object carried by a parsable (aggregated) line. -/
def decodedObj : PyLine → Option (List (String × JsonVal))
  | PyLine.decoded (JsonVal.obj kvs) => some kvs
  | _ => none

/-- Every codepoint accumulated in the replay state is a string. -/
def replayStateOk (st : List (JsonVal × List JsonVal × JsonVal)) : Prop :=
  ∀ p ∈ st, ∀ cp ∈ p.2.1, (asStr cp).isSome = true

theorem asStr_isSome_not_unhashable {v : JsonVal}
    (h : (asStr v).isSome = true) : unhashable v = false := by
  cases v <;> first | rfl | simp [asStr] at h

theorem setAdd_mem {cps : List JsonVal} {cp x : JsonVal}
    (h : x ∈ setAdd cps cp) : x ∈ cps ∨ x = cp := by
  by_cases hc : cps.any (fun y => jsonScalarBeq y cp) = true
  · rw [setAdd, if_pos hc] at h
    exact Or.inl h
  · rw [setAdd, if_neg hc] at h
    rcases List.mem_append.mp h with h | h
    · exact Or.inl h
    · exact Or.inr (List.mem_singleton.mp h)

theorem replayUpd_stateOk {st : List (JsonVal × List JsonVal × JsonVal)}
    {sid cp ip : JsonVal} (hst : replayStateOk st)
    (hcp : (asStr cp).isSome = true) :
    replayStateOk (replayUpd st sid cp ip) := by
  intro p hp cx hcx
  rw [replayUpd] at hp
  by_cases hc : st.any (fun q => jsonScalarBeq q.1 sid) = true
  · rw [if_pos hc] at hp
    rcases List.mem_map.mp hp with ⟨q, hq, rfl⟩
    by_cases hqs : jsonScalarBeq q.1 sid = true
    · rw [if_pos hqs] at hcx
      rcases setAdd_mem hcx with h | h
      · exact hst q hq cx h
      · rw [h]; exact hcp
    · rw [if_neg hqs] at hcx
      exact hst q hq cx hcx
  · rw [if_neg hc] at hp
    rcases List.mem_append.mp hp with h | h
    · exact hst p h cx hcx
    · rw [List.mem_singleton.mp h] at hcx
      rcases setAdd_mem (show cx ∈ setAdd [] cp from hcx) with h2 | h2
      · exact absurd h2 (List.not_mem_nil cx)
      · rw [h2]; exact hcp

theorem replayStep_ok_obj (st : List (JsonVal × List JsonVal × JsonVal))
    {kvs : List (String × JsonVal)}
    (h1 : (asStr (pyGet kvs "session_id" (JsonVal.str "unknown"))).isSome
      = true)
    (h2 : (asStr (pyGet kvs "codepoint" (JsonVal.str ""))).isSome = true) :
    replayStep st (PyLine.decoded (JsonVal.obj kvs)) =
      Except.ok (replayUpd st
        (pyGet kvs "session_id" (JsonVal.str "unknown"))
        (pyGet kvs "codepoint" (JsonVal.str ""))
        (pyGet kvs "ip" (JsonVal.str ""))) := by
  simp [replayStep, asStr_isSome_not_unhashable h1,
    asStr_isSome_not_unhashable h2]

theorem replayLoop_skip :
    ∀ (lines : List PyLine)
      (st : List (JsonVal × List JsonVal × JsonVal)),
      (∀ l ∈ lines, lineOk l = true) →
      replayLoop st lines =
        replayLoop st (lines.filter (fun l => (decodedObj l).isSome)) := by
  intro lines
  induction lines with
  | nil => intro st h; rfl
  | cons l ls ih =>
    intro st h
    have hl := h l (List.mem_cons_self l ls)
    have hls : ∀ x ∈ ls, lineOk x = true :=
      fun x hx => h x (List.mem_cons_of_mem l hx)
    cases l with
    | blank =>
      rw [List.filter_cons, if_neg (by simp [decodedObj])]
      simp only [replayLoop, replayStep]
      exact ih st hls
    | undecodable =>
      rw [List.filter_cons, if_neg (by simp [decodedObj])]
      simp only [replayLoop, replayStep]
      exact ih st hls
    | decoded v =>
      cases v with
      | obj kvs =>
        simp only [lineOk, Bool.and_eq_true] at hl
        have hstep := replayStep_ok_obj st hl.1 hl.2
        rw [List.filter_cons, if_pos (by simp [decodedObj])]
        simp only [replayLoop, hstep]
        exact ih _ hls
      | null => simp [lineOk] at hl
      | bool b => simp [lineOk] at hl
      | num n => simp [lineOk] at hl
      | str s => simp [lineOk] at hl
      | arr a => simp [lineOk] at hl

theorem replayLoop_ok :
    ∀ (lines : List PyLine)
      (st : List (JsonVal × List JsonVal × JsonVal)),
      (∀ l ∈ lines, lineOk l = true) → replayStateOk st →
      ∃ st2, replayLoop st lines = Except.ok st2 ∧ replayStateOk st2 := by
  intro lines
  induction lines with
  | nil => intro st h hst; exact ⟨st, rfl, hst⟩
  | cons l ls ih =>
    intro st h hst
    have hl := h l (List.mem_cons_self l ls)
    have hls : ∀ x ∈ ls, lineOk x = true :=
      fun x hx => h x (List.mem_cons_of_mem l hx)
    cases l with
    | blank =>
      obtain ⟨st2, he, hok⟩ := ih st hls hst
      exact ⟨st2, by simp only [replayLoop, replayStep]; exact he, hok⟩
    | undecodable =>
      obtain ⟨st2, he, hok⟩ := ih st hls hst
      exact ⟨st2, by simp only [replayLoop, replayStep]; exact he, hok⟩
    | decoded v =>
      cases v with
      | obj kvs =>
        simp only [lineOk, Bool.and_eq_true] at hl
        have hstep := replayStep_ok_obj st hl.1 hl.2
        obtain ⟨st2, he, hok⟩ := ih _ hls (replayUpd_stateOk hst hl.2)
        exact ⟨st2, by simp only [replayLoop, hstep]; exact he, hok⟩
      | null => simp [lineOk] at hl
      | bool b => simp [lineOk] at hl
      | num n => simp [lineOk] at hl
      | str s => simp [lineOk] at hl
      | arr a => simp [lineOk] at hl

theorem mapM_asStr_isSome :
    ∀ {cps : List JsonVal}, (∀ cp ∈ cps, (asStr cp).isSome = true) →
      ∃ scps, cps.mapM asStr = some scps := by
  intro cps
  induction cps with
  | nil => intro h; exact ⟨[], rfl⟩
  | cons c cs ih =>
    intro h
    obtain ⟨s, hs⟩ :=
      Option.isSome_iff_exists.mp (h c (List.mem_cons_self c cs))
    obtain ⟨scps, hsc⟩ := ih (fun x hx => h x (List.mem_cons_of_mem c hx))
    exact ⟨s :: scps, by rw [List.mapM_cons, hs, hsc]; rfl⟩

theorem replaySessionOut_ok {sid ip : JsonVal} {cps : List JsonVal}
    (h : ∀ cp ∈ cps, (asStr cp).isSome = true) :
    ∃ r, replaySessionOut sid cps ip = Except.ok r := by
  obtain ⟨scps, hsc⟩ := mapM_asStr_isSome h
  refine ⟨?_, ?_⟩
  · exact
      { session_id := sid, ip := ip,
        characters := (pySorted scps).map codepoint_to_char,
        codepoints := pySorted scps,
        char_count := ((pySorted scps).map codepoint_to_char).length }
  · simp only [replaySessionOut, hsc]

theorem mapM_except_ok {α β : Type} (f : α → Except PyErr β) :
    ∀ {l : List α}, (∀ a ∈ l, ∃ r, f a = Except.ok r) →
      ∃ out, l.mapM f = Except.ok out := by
  intro l
  induction l with
  | nil => intro h; exact ⟨[], rfl⟩
  | cons a l ih =>
    intro h
    obtain ⟨r, hr⟩ := h a (List.mem_cons_self a l)
    obtain ⟨out, hout⟩ := ih (fun b hb => h b (List.mem_cons_of_mem a hb))
    exact ⟨r :: out, by rw [List.mapM_cons, hr, hout]; rfl⟩

/-- C3 counterexample: a replay batch whose second line decodes to the
JSON value `5` (a well-formed JSON line that is not an object record)
is not skipped: the uncaught `AttributeError` from `entry.get` aborts
the whole batch, losing the valid first line as well, instead of
returning the aggregation of the parsable lines. -/
theorem C3_bad_line_aborts_batch :
    parse_log_file
      [PyLine.decoded (JsonVal.obj
        [("session_id", JsonVal.str "s1"),
         ("codepoint", JsonVal.str "0041"),
         ("ip", JsonVal.str "1.2.3.4")]),
       PyLine.decoded (JsonVal.num 5)] =
      Except.error PyErr.attributeError := rfl

/-- C3 amended: only blank lines and lines that fail JSON decoding are
skipped individually.  For inputs in which every line is blank,
undecodable, or decodes to a JSON object whose `session_id` and
`codepoint` fields (after the string defaults) are strings, the
adapter succeeds and returns exactly the aggregation of the decoded
object lines, with every blank or undecodable line silently dropped.
A line that decodes to a non-object JSON value, or to an object with
an unhashable session id or a non-string codepoint, instead aborts the
whole batch (`C3_bad_line_aborts_batch`). -/
theorem C3_amended_skip_unparsable :
    ∀ lines : List PyLine, (∀ l ∈ lines, lineOk l = true) →
      parse_log_file lines =
        parse_log_file (lines.filter (fun l => (decodedObj l).isSome)) ∧
      ∃ out, parse_log_file lines = Except.ok out := by
  intro lines h
  constructor
  · simp only [parse_log_file]
    rw [replayLoop_skip lines [] h]
  · obtain ⟨st2, he, hok⟩ := replayLoop_ok lines [] h
      (fun p hp => absurd hp (List.not_mem_nil p))
    obtain ⟨out, hout⟩ :=
      mapM_except_ok (fun p => replaySessionOut p.1 p.2.1 p.2.2)
        (fun p hp => replaySessionOut_ok (hok p hp))
    exact ⟨out, by simp only [parse_log_file, he, hout]⟩

/-- Witness for C3 amended: a concrete batch with an undecodable line
and a blank line interleaved between two valid records aggregates
exactly as the batch of the two valid records alone, and succeeds. -/
theorem C3_amended_witness :
    parse_log_file
      [PyLine.undecodable,
       PyLine.decoded (JsonVal.obj
         [("session_id", JsonVal.str "s1"),
          ("codepoint", JsonVal.str "0042"),
          ("ip", JsonVal.str "1.2.3.4")]),
       PyLine.blank,
       PyLine.decoded (JsonVal.obj
         [("session_id", JsonVal.str "s1"),
          ("codepoint", JsonVal.str "0041"),
          ("ip", JsonVal.str "1.2.3.4")])] =
      parse_log_file
        [PyLine.decoded (JsonVal.obj
          [("session_id", JsonVal.str "s1"),
           ("codepoint", JsonVal.str "0042"),
           ("ip", JsonVal.str "1.2.3.4")]),
         PyLine.decoded (JsonVal.obj
          [("session_id", JsonVal.str "s1"),
           ("codepoint", JsonVal.str "0041"),
           ("ip", JsonVal.str "1.2.3.4")])] ∧
    ∃ out, parse_log_file
      [PyLine.undecodable,
       PyLine.decoded (JsonVal.obj
         [("session_id", JsonVal.str "s1"),
          ("codepoint", JsonVal.str "0042"),
          ("ip", JsonVal.str "1.2.3.4")]),
       PyLine.blank,
       PyLine.decoded (JsonVal.obj
         [("session_id", JsonVal.str "s1"),
          ("codepoint", JsonVal.str "0041"),
          ("ip", JsonVal.str "1.2.3.4")])] = Except.ok out := by
  have h := C3_amended_skip_unparsable
    [PyLine.undecodable,
     PyLine.decoded (JsonVal.obj
       [("session_id", JsonVal.str "s1"),
        ("codepoint", JsonVal.str "0042"),
        ("ip", JsonVal.str "1.2.3.4")]),
     PyLine.blank,
     PyLine.decoded (JsonVal.obj
       [("session_id", JsonVal.str "s1"),
        ("codepoint", JsonVal.str "0041"),
        ("ip", JsonVal.str "1.2.3.4")])] (by decide)
  exact ⟨h.1, h.2⟩

/-- Witness for C5 amended: the flag is raised for a concrete set whose
only currency-class member is the dollar sign. -/
theorem C5_amended_witness :
    (analyze_character_set ["x", "$"]).has_currency = true :=
  (C5_amended_currency_flag ["x", "$"]).mpr ⟨"$", by decide, by decide⟩

/-- Witness for C6: the pattern fires on the concrete set
`{F, I, 7}`. -/
theorem C6_finnish_witness :
    "FINNISH_IBAN (FI prefix + digits)" ∈
      (analyze_character_set ["F", "I", "7"]).patterns :=
  (C6_finnish_iban_membership_test.1 ["F", "I", "7"]).mpr
    ⟨by decide, by decide, "7", by decide, by decide⟩
